import Mathlib

/-!
Verification of the Session Execution Orchestrator of the kumiai backend
(src/backend/app/infrastructure/claude/...), as a shallow embedding in Lean.

Python dictionaries are embedded as insertion-ordered association lists with
dict-style insert (overwrite in place, append at the end for a new key),
asyncio queues as lists, and each lock-protected critical section as one
atomic step of an explicit operation trace.
-/

set_option autoImplicit false

namespace Kumiai

/-! ### Insertion-ordered dictionaries (Python `dict` semantics) -/

section PyDict

variable {κ β : Type} [DecidableEq κ]

/-- Lookup in an insertion-ordered association list (`d[k]` / `k in d`). -/
def dictGet : List (κ × β) → κ → Option β
  | [], _ => none
  | (k, v) :: rest, key => if k = key then some v else dictGet rest key

/-- Python dict assignment `d[k] = v`: overwrite in place if the key exists,
append at the end otherwise. -/
def dictInsert : List (κ × β) → κ → β → List (κ × β)
  | [], key, val => [(key, val)]
  | (k, v) :: rest, key, val =>
    if k = key then (k, val) :: rest else (k, v) :: dictInsert rest key val

/-- Python `del d[k]`: remove the entry with the given key, if present. -/
def dictRemove : List (κ × β) → κ → List (κ × β)
  | [], _ => []
  | (k, v) :: rest, key => if k = key then rest else (k, v) :: dictRemove rest key

/-- The keys of an association list, in insertion order. -/
def dictKeys (l : List (κ × β)) : List κ := l.map Prod.fst

theorem dictKeys_dictInsert (l : List (κ × β)) (k : κ) (v : β) :
    dictKeys (dictInsert l k v) =
      if k ∈ dictKeys l then dictKeys l else dictKeys l ++ [k] := by
  induction l with
  | nil => simp [dictInsert, dictKeys]
  | cons p rest ih =>
    obtain ⟨k0, v0⟩ := p
    by_cases hk : k0 = k
    · subst hk
      simp [dictInsert, dictKeys]
    · have hstep : dictInsert ((k0, v0) :: rest) k v
          = (k0, v0) :: dictInsert rest k v := by
        simp [dictInsert, hk]
      have hkeys : dictKeys ((k0, v0) :: dictInsert rest k v)
          = k0 :: dictKeys (dictInsert rest k v) := rfl
      have hkeys2 : dictKeys ((k0, v0) :: rest) = k0 :: dictKeys rest := rfl
      rw [hstep, hkeys, hkeys2, ih]
      have hne : k ≠ k0 := fun heq => hk heq.symm
      by_cases hmem : k ∈ dictKeys rest
      · rw [if_pos hmem, if_pos (List.mem_cons_of_mem k0 hmem)]
      · have hnc : k ∉ k0 :: dictKeys rest := by
          intro hcons
          rcases List.mem_cons.mp hcons with h1 | h1
          · exact hne h1
          · exact hmem h1
        rw [if_neg hmem, if_neg hnc, List.cons_append]

theorem nodup_dictKeys_dictInsert {l : List (κ × β)} {k : κ} {v : β}
    (h : (dictKeys l).Nodup) : (dictKeys (dictInsert l k v)).Nodup := by
  rw [dictKeys_dictInsert]
  by_cases hk : k ∈ dictKeys l
  · rw [if_pos hk]
    exact h
  · rw [if_neg hk]
    refine List.Nodup.append h (List.nodup_singleton k) ?_
    intro a ha hb
    rw [List.mem_singleton] at hb
    subst hb
    exact hk ha

theorem dictRemove_sublist (l : List (κ × β)) (key : κ) :
    (dictRemove l key).Sublist l := by
  induction l with
  | nil => simp [dictRemove]
  | cons p rest ih =>
    obtain ⟨k0, v0⟩ := p
    by_cases hk : k0 = key
    · have hstep : dictRemove ((k0, v0) :: rest) key = rest := by
        simp [dictRemove, hk]
      rw [hstep]
      exact (List.Sublist.refl rest).cons (k0, v0)
    · have hstep : dictRemove ((k0, v0) :: rest) key
          = (k0, v0) :: dictRemove rest key := by
        simp [dictRemove, hk]
      rw [hstep]
      exact ih.cons₂ (k0, v0)

theorem nodup_dictKeys_dictRemove {l : List (κ × β)} {key : κ}
    (h : (dictKeys l).Nodup) : (dictKeys (dictRemove l key)).Nodup :=
  ((dictRemove_sublist l key).map Prod.fst).nodup h

theorem dictGet_dictInsert_self (l : List (κ × β)) (k : κ) (v : β) :
    dictGet (dictInsert l k v) k = some v := by
  induction l with
  | nil => simp [dictInsert, dictGet]
  | cons p rest ih =>
    obtain ⟨k0, v0⟩ := p
    by_cases hk : k0 = k
    · subst hk
      simp [dictInsert, dictGet]
    · simp [dictInsert, dictGet, hk, ih]

/-- With pairwise-distinct keys, at most one entry can satisfy any predicate
that pins down the key. -/
theorem countP_key_le_one (l : List (κ × β)) (key : κ) (q : κ × β → Bool)
    (h : (dictKeys l).Nodup) :
    l.countP (fun p => decide (p.1 = key) && q p) ≤ 1 := by
  induction l with
  | nil => simp
  | cons p rest ih =>
    obtain ⟨k0, v0⟩ := p
    rw [dictKeys, List.map_cons, List.nodup_cons] at h
    obtain ⟨hk0, hrest⟩ := h
    rw [List.countP_cons]
    by_cases hk : k0 = key
    · have hzero : rest.countP (fun p => decide (p.1 = key) && q p) = 0 := by
        refine List.countP_eq_zero.mpr (fun a ha => ?_)
        have hmem : a.1 ∈ List.map Prod.fst rest := List.mem_map_of_mem Prod.fst ha
        have hne : a.1 ≠ key := by
          intro heq
          rw [heq, ← hk] at hmem
          exact hk0 hmem
        simp [hne]
      rw [hzero]
      split <;> simp
    · have hfalse : (decide ((k0, v0).1 = key) && q (k0, v0)) = false := by
        simp [hk]
      rw [hfalse]
      simpa using ih hrest

end PyDict

/-! ### C1 — SessionExecutor task registry
(src/backend/app/infrastructure/claude/execution/executor.py)

`SessionExecutor._executions : Dict[UUID, asyncio.Task]` maps a session id to
its activation task.  The check-then-start step of
`_trigger_execution_if_needed`, the removal in `_cleanup_execution`, and the
cancel-and-remove step of `interrupt` each run inside `async with lock` for the
session's dedicated lock and contain no suspension point that another trigger
for the same session could interleave with, so each is one atomic step of the
trace semantics below.  A task's `done()` flag flipping to true when its
coroutine returns is the remaining kind of step. -/

/-- An `asyncio.Task` as the executor sees it: an identity and its `done()` flag. -/
structure ActivationTask where
  taskId : Nat
  done : Bool
deriving DecidableEq

/-- The per-session part of `SessionExecutor` state: the `_executions` map and
a counter supplying fresh task identities for `asyncio.create_task`. -/
structure ExecutorState where
  executions : List (Nat × ActivationTask)
  nextTaskId : Nat
deriving DecidableEq

/-- SessionExecutor._trigger_execution_if_needed: under the session lock,
return without starting anything when a registered task is not done;
otherwise register a freshly created task. -/
def triggerExecutionIfNeeded (st : ExecutorState) (sid : Nat) : ExecutorState :=
  match dictGet st.executions sid with
  | some task =>
    if task.done then
      { executions := dictInsert st.executions sid ⟨st.nextTaskId, false⟩,
        nextTaskId := st.nextTaskId + 1 }
    else st
  | none =>
    { executions := dictInsert st.executions sid ⟨st.nextTaskId, false⟩,
      nextTaskId := st.nextTaskId + 1 }

theorem triggerExecutionIfNeeded_eq_some {st : ExecutorState} {sid : Nat}
    {task : ActivationTask} (h : dictGet st.executions sid = some task) :
    triggerExecutionIfNeeded st sid =
      if task.done then
        { executions := dictInsert st.executions sid ⟨st.nextTaskId, false⟩,
          nextTaskId := st.nextTaskId + 1 }
      else st := by
  unfold triggerExecutionIfNeeded
  rw [h]

theorem triggerExecutionIfNeeded_eq_none {st : ExecutorState} {sid : Nat}
    (h : dictGet st.executions sid = none) :
    triggerExecutionIfNeeded st sid =
      { executions := dictInsert st.executions sid ⟨st.nextTaskId, false⟩,
        nextTaskId := st.nextTaskId + 1 } := by
  unfold triggerExecutionIfNeeded
  rw [h]

/-- The activation coroutine for `sid` returns: its task's `done()` flag
becomes true (the registry keys are untouched). -/
def markTaskDone (st : ExecutorState) (sid : Nat) : ExecutorState :=
  { st with executions :=
      st.executions.map (fun p => if p.1 = sid then (p.1, ⟨p.2.taskId, true⟩) else p) }

/-- SessionExecutor._cleanup_execution: under the session lock, drop the
registered task entry. -/
def cleanupExecution (st : ExecutorState) (sid : Nat) : ExecutorState :=
  { st with executions := dictRemove st.executions sid }

/-- The cancel-and-remove step of `SessionExecutor.interrupt`: under the
session lock, the registered task (if any) is cancelled, awaited and removed. -/
def interruptRemoveTask (st : ExecutorState) (sid : Nat) : ExecutorState :=
  { st with executions := dictRemove st.executions sid }

/-- One atomic step against the executor's task registry. -/
inductive ExecutorOp
  | trigger (sid : Nat)
  | markDone (sid : Nat)
  | cleanup (sid : Nat)
  | interruptRemove (sid : Nat)
deriving DecidableEq

def applyOp (st : ExecutorState) : ExecutorOp → ExecutorState
  | .trigger sid => triggerExecutionIfNeeded st sid
  | .markDone sid => markTaskDone st sid
  | .cleanup sid => cleanupExecution st sid
  | .interruptRemove sid => interruptRemoveTask st sid

def applyOps (st : ExecutorState) (ops : List ExecutorOp) : ExecutorState :=
  ops.foldl applyOp st

def initExecutorState : ExecutorState := ⟨[], 0⟩

/-- How many registered-and-unfinished activation tasks the map holds for `sid`. -/
def unfinishedFor (st : ExecutorState) (sid : Nat) : Nat :=
  st.executions.countP (fun p => decide (p.1 = sid) && !p.2.done)

/-- The `_executions` dict never holds two entries with the same key. -/
def WellKeyed (st : ExecutorState) : Prop := (dictKeys st.executions).Nodup

theorem wellKeyed_applyOp {st : ExecutorState} (op : ExecutorOp)
    (h : WellKeyed st) : WellKeyed (applyOp st op) := by
  cases op with
  | trigger sid =>
    show WellKeyed (triggerExecutionIfNeeded st sid)
    cases hget : dictGet st.executions sid with
    | none =>
      rw [triggerExecutionIfNeeded_eq_none hget]
      exact nodup_dictKeys_dictInsert h
    | some task =>
      rw [triggerExecutionIfNeeded_eq_some hget]
      by_cases hd : task.done = true
      · rw [if_pos hd]
        exact nodup_dictKeys_dictInsert h
      · rw [if_neg hd]
        exact h
  | markDone sid =>
    have hcomp : (Prod.fst ∘ fun p : Nat × ActivationTask =>
        if p.1 = sid then (p.1, (⟨p.2.taskId, true⟩ : ActivationTask)) else p) =
        Prod.fst := by
      funext p
      by_cases hp : p.1 = sid <;> simp [hp]
    show ((st.executions.map fun p =>
        if p.1 = sid then (p.1, (⟨p.2.taskId, true⟩ : ActivationTask)) else p).map
          Prod.fst).Nodup
    rw [List.map_map, hcomp]
    exact h
  | cleanup sid => exact nodup_dictKeys_dictRemove h
  | interruptRemove sid => exact nodup_dictKeys_dictRemove h

theorem wellKeyed_applyOps {st : ExecutorState} (ops : List ExecutorOp)
    (h : WellKeyed st) : WellKeyed (applyOps st ops) := by
  induction ops generalizing st with
  | nil => exact h
  | cons op rest ih => exact ih (wellKeyed_applyOp op h)

theorem unfinishedFor_le_one_of_wellKeyed {st : ExecutorState} (sid : Nat)
    (h : WellKeyed st) : unfinishedFor st sid ≤ 1 :=
  countP_key_le_one st.executions sid (fun p => !p.2.done) h

/-- C1: for every session, at every instant along any interleaving of
lock-protected registry steps started from the initial (empty) executor state,
at most one activation task for that session is registered and unfinished; and
the check-then-start step of `_trigger_execution_if_needed` is a no-op
whenever a registered task for the session is not done, so a concurrent
enqueue never creates a second task. -/
theorem C1_at_most_one_unfinished_activation :
    (∀ (ops : List ExecutorOp) (sid : Nat),
        unfinishedFor (applyOps initExecutorState ops) sid ≤ 1)
    ∧ (∀ (st : ExecutorState) (sid : Nat) (t : ActivationTask),
        dictGet st.executions sid = some t → t.done = false →
        triggerExecutionIfNeeded st sid = st) := by
  constructor
  · intro ops sid
    refine unfinishedFor_le_one_of_wellKeyed sid (wellKeyed_applyOps ops ?_)
    simp [WellKeyed, initExecutorState, dictKeys]
  · intro st sid t hget hdone
    rw [triggerExecutionIfNeeded_eq_some hget, if_neg (by simp [hdone])]

/-- C1 witness: two concurrent enqueues for session 0 leave at most one
unfinished task, and a trigger against a concrete state holding an unfinished
task for session 0 changes nothing. -/
theorem C1_at_most_one_unfinished_activation_witness :
    unfinishedFor (applyOps initExecutorState
        [.trigger 0, .trigger 0, .trigger 1]) 0 ≤ 1
    ∧ triggerExecutionIfNeeded ⟨[(0, ⟨3, false⟩)], 4⟩ 0 =
        ⟨[(0, ⟨3, false⟩)], 4⟩ :=
  ⟨C1_at_most_one_unfinished_activation.1 [.trigger 0, .trigger 0, .trigger 1] 0,
   C1_at_most_one_unfinished_activation.2 ⟨[(0, ⟨3, false⟩)], 4⟩ 0 ⟨3, false⟩
     (by decide) rfl⟩

/-! ### C2 — Execution._message_generator
(src/backend/app/infrastructure/claude/execution/execution.py)

The generator takes the first queued message unconditionally, then races
`queue.get()` against `completion_event.wait()`.  For an idle session whose
enqueued inputs `[m1, ..., mn]` all arrive before the completion signal, the
race is won by `queue.get()` for each remaining input in FIFO order and then
by the completion event.  Each iteration awaits
`_save_and_broadcast_user_message` (database save and commit, then SSE
broadcast) before yielding the formatted message into the worker stream and
before the next iteration can start. -/

/-- A queued input (`QueuedMessage` in app/infrastructure/claude/types.py);
the payload is the Python string, embedded as its character sequence. -/
structure QueuedMessage where
  message : List Char
  senderName : Option String
  senderSessionId : Option String
  senderAgentId : Option String
deriving DecidableEq

/-- One observable action of `_message_generator`, in program order. -/
inductive GenAction
  | saveUserMessage (m : QueuedMessage)
  | broadcastUserMessage (m : QueuedMessage)
  | yieldToWorker (m : QueuedMessage)
  | broadcastQueueStatus
deriving DecidableEq

/-- The `while True` loop of `_message_generator`: the race is won by
`queue.get()` while inputs remain and by the completion event afterwards. -/
def messageGeneratorLoop : List QueuedMessage → List GenAction
  | [] => []
  | m :: rest =>
    .saveUserMessage m :: .broadcastUserMessage m :: .yieldToWorker m ::
      .broadcastQueueStatus :: messageGeneratorLoop rest

/-- Execution._message_generator on the FIFO list of inputs enqueued for an
idle session: the initial unconditional `queue.get()` block, then the loop.
On an empty list the initial get never completes and nothing is emitted. -/
def messageGenerator : List QueuedMessage → List GenAction
  | [] => []
  | first :: rest =>
    .saveUserMessage first :: .broadcastUserMessage first :: .yieldToWorker first ::
      .broadcastQueueStatus :: messageGeneratorLoop rest

def yieldedMessage : GenAction → Option QueuedMessage
  | .yieldToWorker m => some m
  | _ => none

def savedMessage : GenAction → Option QueuedMessage
  | .saveUserMessage m => some m
  | _ => none

theorem messageGenerator_eq_loop (msgs : List QueuedMessage) :
    messageGenerator msgs = messageGeneratorLoop msgs := by
  cases msgs <;> rfl

theorem messageGeneratorLoop_eq_bind (msgs : List QueuedMessage) :
    messageGeneratorLoop msgs = msgs.flatMap (fun m =>
      [.saveUserMessage m, .broadcastUserMessage m, .yieldToWorker m,
       .broadcastQueueStatus]) := by
  induction msgs with
  | nil => rfl
  | cons m rest ih => simp [messageGeneratorLoop, ih]

/-- C2: the inputs enqueued for an idle session are yielded to the worker
stream in exactly enqueue (FIFO) order, and the action trace of the generator
is, message by message, persist the user-input record, broadcast it, yield the
input to the worker, broadcast the queue status — so each input's persisted
record precedes its delivery and the delivery of every later input. -/
theorem C2_fifo_forwarding_save_before_yield :
    ∀ msgs : List QueuedMessage,
      messageGenerator msgs = msgs.flatMap (fun m =>
        [.saveUserMessage m, .broadcastUserMessage m, .yieldToWorker m,
         .broadcastQueueStatus])
      ∧ (messageGenerator msgs).filterMap yieldedMessage = msgs
      ∧ (messageGenerator msgs).filterMap savedMessage = msgs := by
  intro msgs
  rw [messageGenerator_eq_loop]
  refine ⟨messageGeneratorLoop_eq_bind msgs, ?_, ?_⟩ <;>
  · induction msgs with
    | nil => rfl
    | cons m rest ih =>
      simp [messageGeneratorLoop, List.filterMap_cons, yieldedMessage,
        savedMessage, ih]

/-! ### SessionStatusManager
(src/backend/app/infrastructure/claude/state/session_status_manager.py)

Each update method acquires the session's lock and runs its whole body inside
`try ... except Exception`, so database and broadcast failures are logged and
swallowed.  Failures are injected explicitly: `onLoad` makes the repository
read raise, `onCommit` makes the update/commit raise (the repository-session
context manager rolls the transaction back), and `onBroadcast` makes the SSE
broadcast raise after the commit has already succeeded. -/

/-- app/domain/value_objects.SessionStatus. -/
inductive SessionStatus
  | initializing
  | idle
  | working
  | error
  | interrupted
  | done
  | cancelled
deriving DecidableEq

/-- The persisted per-session fields the status manager touches. -/
structure SessionRecord where
  status : SessionStatus
  errorMessage : Option String
  claudeSessionId : Option String
deriving DecidableEq

/-- Which step inside a status-manager `try` body raises, if any. -/
inductive StatusFailure
  | onLoad
  | onCommit
  | onBroadcast
deriving DecidableEq

/-- What a status-manager call leaves behind: the persisted record, the SSE
status events delivered, and the exception escaping to the caller, if any. -/
structure StatusUpdateResult where
  db : Option SessionRecord
  broadcasts : List (String × SessionStatus)
  propagated : Option String
deriving DecidableEq

/-- Outcome of a `try` body: persisted record, delivered events, and the
exception raised inside the body, if it did not run to completion. -/
structure StatusBodyOutcome where
  db : Option SessionRecord
  broadcasts : List (String × SessionStatus)
  raised : Option String
deriving DecidableEq

/-- The `except Exception` handler shared by every update method: whatever the
body raised is logged, never re-raised. -/
def catchAndLog (o : StatusBodyOutcome) : StatusUpdateResult :=
  { db := o.db, broadcasts := o.broadcasts, propagated := none }

/-- Body of SessionStatusManager.update_to_working: load the session (no-op if
missing), clear the stored error message when recovering from ERROR, set
WORKING, persist, then broadcast. -/
def updateToWorkingBody (fl : Option StatusFailure) (sid : String)
    (db : Option SessionRecord) : StatusBodyOutcome :=
  if fl = some .onLoad then ⟨db, [], some "db error"⟩
  else
    match db with
    | none => ⟨db, [], none⟩
    | some s =>
      let s1 := if s.status = .error then { s with errorMessage := none } else s
      let s2 := { s1 with status := SessionStatus.working }
      if fl = some .onCommit then ⟨db, [], some "db error"⟩
      else if fl = some .onBroadcast then ⟨some s2, [], some "broadcast error"⟩
      else ⟨some s2, [(sid, .working)], none⟩

def update_to_working (fl : Option StatusFailure) (sid : String)
    (db : Option SessionRecord) : StatusUpdateResult :=
  catchAndLog (updateToWorkingBody fl sid db)

/-- Body of SessionStatusManager.update_after_execution: on an execution
error set ERROR and store `str(execution_error)`; on success set IDLE, clear
the error message, store the claude session id when one was captured. -/
def updateAfterExecutionBody (fl : Option StatusFailure) (sid : String)
    (executionError : Option String) (claudeSessionId : Option String)
    (db : Option SessionRecord) : StatusBodyOutcome :=
  if fl = some .onLoad then ⟨db, [], some "db error"⟩
  else
    match db with
    | none => ⟨db, [], none⟩
    | some s =>
      match executionError with
      | some err =>
        let s2 := { s with status := SessionStatus.error, errorMessage := some err }
        if fl = some .onCommit then ⟨db, [], some "db error"⟩
        else if fl = some .onBroadcast then ⟨some s2, [], some "broadcast error"⟩
        else ⟨some s2, [(sid, .error)], none⟩
      | none =>
        let s2 := { s with
          status := SessionStatus.idle,
          errorMessage := none,
          claudeSessionId := match claudeSessionId with
            | some cid => some cid
            | none => s.claudeSessionId }
        if fl = some .onCommit then ⟨db, [], some "db error"⟩
        else if fl = some .onBroadcast then ⟨some s2, [], some "broadcast error"⟩
        else ⟨some s2, [(sid, .idle)], none⟩

def update_after_execution (fl : Option StatusFailure) (sid : String)
    (executionError : Option String) (claudeSessionId : Option String)
    (db : Option SessionRecord) : StatusUpdateResult :=
  catchAndLog (updateAfterExecutionBody fl sid executionError claudeSessionId db)

/-- Body of SessionStatusManager.reset_to_idle: force IDLE, clear the error
message, optionally clear the stored claude session id. -/
def resetToIdleBody (fl : Option StatusFailure) (sid : String)
    (clearClaudeSession : Bool) (db : Option SessionRecord) : StatusBodyOutcome :=
  if fl = some .onLoad then ⟨db, [], some "db error"⟩
  else
    match db with
    | none => ⟨db, [], none⟩
    | some s =>
      let s2 := { s with
        status := SessionStatus.idle,
        errorMessage := none,
        claudeSessionId := if clearClaudeSession then none else s.claudeSessionId }
      if fl = some .onCommit then ⟨db, [], some "db error"⟩
      else if fl = some .onBroadcast then ⟨some s2, [], some "broadcast error"⟩
      else ⟨some s2, [(sid, .idle)], none⟩

def reset_to_idle (fl : Option StatusFailure) (sid : String)
    (clearClaudeSession : Bool) (db : Option SessionRecord) : StatusUpdateResult :=
  catchAndLog (resetToIdleBody fl sid clearClaudeSession db)

/-- Body of SessionStatusManager.update_to_interrupted: force INTERRUPTED
from any state. -/
def updateToInterruptedBody (fl : Option StatusFailure) (sid : String)
    (db : Option SessionRecord) : StatusBodyOutcome :=
  if fl = some .onLoad then ⟨db, [], some "db error"⟩
  else
    match db with
    | none => ⟨db, [], none⟩
    | some s =>
      let s2 := { s with status := SessionStatus.interrupted }
      if fl = some .onCommit then ⟨db, [], some "db error"⟩
      else if fl = some .onBroadcast then ⟨some s2, [], some "broadcast error"⟩
      else ⟨some s2, [(sid, .interrupted)], none⟩

def update_to_interrupted (fl : Option StatusFailure) (sid : String)
    (db : Option SessionRecord) : StatusUpdateResult :=
  catchAndLog (updateToInterruptedBody fl sid db)

/-- C7: no persistence or broadcast failure inside any SessionStatusManager
operation propagates to the caller — whichever step raises, each of the four
update operations catches the exception, logs it, and returns normally. -/
theorem C7_status_failures_never_propagate :
    ∀ (fl : Option StatusFailure) (sid : String) (db : Option SessionRecord)
      (err cid : Option String) (clear : Bool),
      (update_to_working fl sid db).propagated = none
      ∧ (update_after_execution fl sid err cid db).propagated = none
      ∧ (reset_to_idle fl sid clear db).propagated = none
      ∧ (update_to_interrupted fl sid db).propagated = none := by
  intro fl sid db err cid clear
  exact ⟨rfl, rfl, rfl, rfl⟩

/-- C8: update_to_working on an existing session sets the persisted status to
WORKING, clears the stored error message exactly when the prior status was
ERROR, keeps the stored claude session id, and broadcasts one status event
carrying the session id and the WORKING status. -/
theorem C8_update_to_working_semantics :
    ∀ (sid : String) (s : SessionRecord),
      update_to_working none sid (some s) =
        { db := some
            { status := SessionStatus.working,
              errorMessage :=
                if s.status = SessionStatus.error then none else s.errorMessage,
              claudeSessionId := s.claudeSessionId },
          broadcasts := [(sid, SessionStatus.working)],
          propagated := none } := by
  intro sid s
  obtain ⟨st, em, cid⟩ := s
  by_cases hs : st = SessionStatus.error <;>
    simp [update_to_working, updateToWorkingBody, catchAndLog, hs]

/-! ### C3 — status transitions of one activation
(src/backend/app/infrastructure/claude/execution/executor.py,
SessionExecutor._execute_session) -/

/-- Outcome of one activation run: success (with the claude session id
subsequently looked up for resume), or an exception with text
`str(exception)`. -/
inductive RunOutcome
  | success (claudeSessionId : Option String)
  | failure (errText : String)
deriving DecidableEq

/-- SessionExecutor._execute_session, projected to the status updates it
performs: `update_to_working` at entry (it swallows its own failures, so the
body below it always runs), then `update_after_execution` — with no error
after a successful run and commit, with the exception after a failure — and
finally the re-raise to the wrapping task. -/
def executeSession (sid : String) (db0 : Option SessionRecord)
    (run : RunOutcome) : Option SessionRecord × List (String × SessionStatus) :=
  let r1 := update_to_working none sid db0
  match run with
  | .success cid =>
    let r2 := update_after_execution none sid none cid r1.db
    (r2.db, r1.broadcasts ++ r2.broadcasts)
  | .failure err =>
    let r2 := update_after_execution none sid (some err) none r1.db
    (r2.db, r1.broadcasts ++ r2.broadcasts)

/-- The sequence of status values an activation persisted and broadcast. -/
def persistedStatuses
    (res : Option SessionRecord × List (String × SessionStatus)) :
    List SessionStatus :=
  res.2.map Prod.snd

/-- C3 counterexample: a Python exception can have empty text (e.g.
`ValueError()` with `str(e) = ""`); the activation then persists
WORKING → ERROR but stores the empty string, so no non-empty error message is
stored, contrary to the claim. -/
theorem C3_counterexample_empty_exception_text :
    persistedStatuses (executeSession "s"
        (some ⟨SessionStatus.idle, none, none⟩) (.failure ""))
      = [SessionStatus.working, SessionStatus.error]
    ∧ (executeSession "s" (some ⟨SessionStatus.idle, none, none⟩)
        (.failure "")).1.bind SessionRecord.errorMessage = some ""
    ∧ ¬ ∃ m, (executeSession "s" (some ⟨SessionStatus.idle, none, none⟩)
        (.failure "")).1.bind SessionRecord.errorMessage = some m ∧ m ≠ "" := by
  refine ⟨rfl, rfl, ?_⟩
  rintro ⟨m, hm, hne⟩
  have hm2 : (some "" : Option String) = some m := hm
  exact hne (Option.some.inj hm2).symm

/-- C3 (amended): for an activation on an existing session, the persisted
status changes are exactly WORKING then IDLE on success (with the stored
error cleared), and exactly WORKING then ERROR on failure with the
exception's text stored as the error message — that stored message is
non-empty whenever the exception's text is non-empty. -/
theorem C3_activation_status_transitions :
    ∀ (sid : String) (s : SessionRecord) (cid : Option String) (err : String),
      persistedStatuses (executeSession sid (some s) (.success cid))
          = [SessionStatus.working, SessionStatus.idle]
      ∧ (executeSession sid (some s) (.success cid)).1.bind
            SessionRecord.errorMessage = none
      ∧ persistedStatuses (executeSession sid (some s) (.failure err))
          = [SessionStatus.working, SessionStatus.error]
      ∧ (executeSession sid (some s) (.failure err)).1.bind
            SessionRecord.errorMessage = some err
      ∧ (err ≠ "" → ∃ m, (executeSession sid (some s) (.failure err)).1.bind
            SessionRecord.errorMessage = some m ∧ m ≠ "") := by
  intro sid s cid err
  obtain ⟨st, em, csid⟩ := s
  refine ⟨?_, ?_, ?_, ?_, fun hne => ⟨err, ?_, hne⟩⟩ <;>
  · cases cid <;>
    by_cases hs : st = SessionStatus.error <;>
      simp [executeSession, persistedStatuses, update_to_working,
        updateToWorkingBody, update_after_execution, updateAfterExecutionBody,
        catchAndLog, hs]

/-- C3 witness: a failing activation with non-empty exception text stores
that non-empty message. -/
theorem C3_activation_status_transitions_witness :
    ∃ m, (executeSession "s" (some ⟨SessionStatus.idle, none, none⟩)
        (.failure "boom")).1.bind SessionRecord.errorMessage = some m ∧
        m ≠ "" :=
  (C3_activation_status_transitions "s" ⟨SessionStatus.idle, none, none⟩
    none "boom").2.2.2.2 (by decide)

/-! ### C4 — SessionExecutor.interrupt
(src/backend/app/infrastructure/claude/execution/executor.py)

interrupt's body runs inside `try ... except Exception` that re-raises as
`ClaudeExecutionError`.  `_interrupt_claude_client` swallows only
`ClientNotFoundError`; any other exception from `client.interrupt()` reaches
the handler before the queue is drained.  The cancel step runs inside
`async with lock`: when the registered task is not done, interrupt cancels it
and awaits it while still holding the per-session lock — but the cancelled
`_execute_session`'s finally-path calls `_cleanup_execution`, which must
acquire that same lock, so the two wait on each other and interrupt never
returns.  When the registered task is already done (or absent) no await
happens and the body runs to the end. -/

/-- Modelled from the spec: `MessageQueueProcessor.clear_queue`
(app/infrastructure/claude/execution/queue_processor.py is not under src/).
Spec §4.1: `drain(sessionId)` atomically removes and discards all pending
items (used by interrupt). -/
def clear_queue (_queue : List QueuedMessage) : List QueuedMessage := []

/-- The state `SessionExecutor.interrupt` touches for one session;
`clientInterruptRaises` injects a non-ClientNotFound exception from
`client.interrupt()`. -/
structure InterruptState where
  clientPresent : Bool
  clientInterruptRaises : Bool
  queue : List QueuedMessage
  task : Option ActivationTask
  db : Option SessionRecord
deriving DecidableEq

/-- What interrupt leaves behind, plus the status-update call it makes. -/
structure InterruptResult where
  clientPresent : Bool
  queue : List QueuedMessage
  task : Option ActivationTask
  db : Option SessionRecord
  broadcasts : List (String × SessionStatus)
  statusUpdateRan : Bool
deriving DecidableEq

/-- Outcome of one `SessionExecutor.interrupt` call: a normal return, the
`ClaudeExecutionError` re-raised by the except-handler, or no return at all
because of the circular wait on the session lock. -/
inductive InterruptOutcome
  | ok (r : InterruptResult)
  | raised (msg : String)
  | deadlocked
deriving DecidableEq

/-- SessionExecutor.interrupt: interrupt and remove the Claude client
(`ClientNotFoundError` is swallowed when absent; any other exception from
`client.interrupt()` is re-raised as `ClaudeExecutionError` with the queue
not yet drained, the task map untouched and no status update run), clear the
queue, then under the session lock handle the registered task: an unfinished
task is cancelled and awaited while interrupt still holds the lock the task's
`_cleanup_execution` finally-path must acquire — a circular wait, so
interrupt never returns; a done or absent task needs no await and is simply
deleted.  Finally `_update_session_status_after_execution(sid, None)` looks
up the stored claude session id (the client is gone by then, so from the
database) and resets the session to IDLE. -/
def interruptSession (sid : String) (st : InterruptState) : InterruptOutcome :=
  if st.clientPresent && st.clientInterruptRaises then
    .raised "Failed to interrupt session"
  else
    let queueAfter := clear_queue st.queue
    match st.task with
    | some t =>
      if t.done then
        let cid := st.db.bind SessionRecord.claudeSessionId
        let r := update_after_execution none sid none cid st.db
        .ok
          { clientPresent := false,
            queue := queueAfter,
            task := none,
            db := r.db,
            broadcasts := r.broadcasts,
            statusUpdateRan := true }
      else
        .deadlocked
    | none =>
      let cid := st.db.bind SessionRecord.claudeSessionId
      let r := update_after_execution none sid none cid st.db
      .ok
        { clientPresent := false,
          queue := queueAfter,
          task := none,
          db := r.db,
          broadcasts := r.broadcasts,
          statusUpdateRan := true }

/-- C4 counterexample: on a session with a running (registered, unfinished)
activation task and 3 queued undelivered inputs, interrupt awaits the
cancelled task while holding the per-session lock that the task's
`_cleanup_execution` must acquire, so it never returns — no drain,
deregistration or status update is delivered, contrary to the claim's
"in every case". -/
theorem C4_counterexample_running_task_deadlock :
    interruptSession "s"
        ⟨false, false,
         [⟨['m', '1'], none, none, none⟩, ⟨['m', '2'], none, none, none⟩,
          ⟨['m', '3'], none, none, none⟩],
         some ⟨0, false⟩, some ⟨SessionStatus.working, none, none⟩⟩
      = .deadlocked
    ∧ ¬ ∃ r : InterruptResult,
        interruptSession "s"
            ⟨false, false,
             [⟨['m', '1'], none, none, none⟩, ⟨['m', '2'], none, none, none⟩,
              ⟨['m', '3'], none, none, none⟩],
             some ⟨0, false⟩, some ⟨SessionStatus.working, none, none⟩⟩
          = .ok r := by
  refine ⟨rfl, ?_⟩
  rintro ⟨r, hr⟩
  exact InterruptOutcome.noConfusion hr

/-- C4 (amended): when no unfinished activation task is registered for the
session (so task cancellation is a no-op) and the worker-client interrupt
step does not itself raise, interrupt never raises, and it returns with the
pending-input queue at size 0, no activation task registered in the task
map, and the status-update call for the session performed. -/
theorem C4_interrupt_nothing_running :
    ∀ (sid : String) (st : InterruptState),
      (∀ t, st.task = some t → t.done = true) →
      (st.clientPresent = false ∨ st.clientInterruptRaises = false) →
      ∃ r : InterruptResult,
        interruptSession sid st = .ok r
        ∧ r.queue = [] ∧ r.task = none ∧ r.statusUpdateRan = true := by
  intro sid st htask hclient
  obtain ⟨cp, cir, q, task, db⟩ := st
  have hcli : (cp && cir) = false := by
    rcases hclient with h | h <;> simp_all
  unfold interruptSession
  rw [show (⟨cp, cir, q, task, db⟩ : InterruptState).clientPresent = cp from rfl,
    show (⟨cp, cir, q, task, db⟩ : InterruptState).clientInterruptRaises = cir
      from rfl, hcli, if_neg (by simp)]
  cases task with
  | none => exact ⟨_, rfl, rfl, rfl, rfl⟩
  | some t =>
    have hd : t.done = true := htask t rfl
    rw [show (⟨cp, cir, q, some t, db⟩ : InterruptState).task = some t from rfl]
    rw [show (match some t with
        | some u =>
          if u.done then
            let cid := db.bind SessionRecord.claudeSessionId
            let r := update_after_execution none sid none cid db
            InterruptOutcome.ok
              { clientPresent := false, queue := clear_queue q, task := none,
                db := r.db, broadcasts := r.broadcasts, statusUpdateRan := true }
          else .deadlocked
        | none =>
          let cid := db.bind SessionRecord.claudeSessionId
          let r := update_after_execution none sid none cid db
          InterruptOutcome.ok
            { clientPresent := false, queue := clear_queue q, task := none,
              db := r.db, broadcasts := r.broadcasts, statusUpdateRan := true })
      = if t.done then
          let cid := db.bind SessionRecord.claudeSessionId
          let r := update_after_execution none sid none cid db
          InterruptOutcome.ok
            { clientPresent := false, queue := clear_queue q, task := none,
              db := r.db, broadcasts := r.broadcasts, statusUpdateRan := true }
        else .deadlocked from rfl, if_pos hd]
    exact ⟨_, rfl, rfl, rfl, rfl⟩

/-- C4 witness: interrupting a session with no registered task and no client
drains the queue, leaves no task, and performs the status update. -/
theorem C4_interrupt_nothing_running_witness :
    ∃ r : InterruptResult,
      interruptSession "s"
          ⟨false, false, [⟨['h', 'i'], none, none, none⟩], none,
           some ⟨SessionStatus.idle, none, none⟩⟩ = .ok r
      ∧ r.queue = [] ∧ r.task = none ∧ r.statusUpdateRan = true :=
  C4_interrupt_nothing_running "s"
    ⟨false, false, [⟨['h', 'i'], none, none, none⟩], none,
     some ⟨SessionStatus.idle, none, none⟩⟩
    (fun _ ht => nomatch ht) (Or.inl rfl)

/-! ### C5 — hook execution registry
(src/backend/app/infrastructure/claude/execution/hooks.py)

`_execution_registry` keys entries by the Claude SDK session id (the active
pool), `_pending_executions` by the internal session id (the pending pool).
Probing a pending entry asks its execution's client for the captured SDK id
(`get_session_id_async`, bounded wait); the model carries that answer as
`capturedSdkId`, with `none` covering both "nothing captured yet" and a probe
that raised or timed out. -/

/-- One registry entry: the execution reference together with the context
stored beside it. -/
structure RegEntry where
  internalId : String
  capturedSdkId : Option String
  projectId : Option String
  sourceInstanceId : Option String
deriving DecidableEq

/-- The two pools of the hook registry. -/
structure HookRegistry where
  active : List (String × RegEntry)
  pending : List (String × RegEntry)
deriving DecidableEq

/-- hooks._eagerly_register_from_pending: return the active entry if the SDK
id is already registered; otherwise take the first pending entry (no
probing — the hook fires before any output has been streamed), register it
in the active pool under the SDK id, and delete it from pending. -/
def eagerlyRegisterFromPending (sdkId : String) (reg : HookRegistry) :
    Option RegEntry × HookRegistry :=
  match dictGet reg.active sdkId with
  | some e => (some e, reg)
  | none =>
    match reg.pending with
    | [] => (none, reg)
    | (internalId, e) :: _ =>
      (some e,
        { active := dictInsert reg.active sdkId e,
          pending := dictRemove reg.pending internalId })

/-- The pending-pool scan of hooks._get_or_register_execution: probe entries
in order, returning the first whose client reports the wanted SDK id,
together with the number of probes performed. -/
def probePending (sdkId : String) :
    List (String × RegEntry) → Option (String × RegEntry) × Nat
  | [] => (none, 0)
  | (internalId, e) :: rest =>
    if e.capturedSdkId = some sdkId then (some (internalId, e), 1)
    else
      let r := probePending sdkId rest
      (r.1, r.2 + 1)

/-- hooks._get_or_register_execution: active-pool hit first (zero probes);
otherwise probe the pending pool, promoting the first match to the active
pool; otherwise give up. -/
def getOrRegisterExecution (sdkId : String) (reg : HookRegistry) :
    Option RegEntry × HookRegistry × Nat :=
  match dictGet reg.active sdkId with
  | some e => (some e, reg, 0)
  | none =>
    match probePending sdkId reg.pending with
    | (some (internalId, e), n) =>
      (some e,
        { active := dictInsert reg.active sdkId e,
          pending := dictRemove reg.pending internalId },
        n)
    | (none, n) => (none, reg, n)

/-- C5: when the external id misses the active pool, probing the (single)
pending entry yields no match, and exactly one pending entry exists, the
eager path promotes that entry to the active pool keyed by the external id
and empties the pending pool; every subsequent resolve of that id then
answers from the active pool directly — the state is unchanged and zero
pending probes are performed. -/
theorem C5_eager_promotion_single_pending :
    ∀ (x internalId : String) (e : RegEntry) (reg : HookRegistry),
      dictGet reg.active x = none →
      reg.pending = [(internalId, e)] →
      e.capturedSdkId ≠ some x →
      ∃ reg2 : HookRegistry,
        eagerlyRegisterFromPending x reg = (some e, reg2)
        ∧ dictGet reg2.active x = some e
        ∧ reg2.pending = []
        ∧ getOrRegisterExecution x reg2 = (some e, reg2, 0)
        ∧ eagerlyRegisterFromPending x reg2 = (some e, reg2) := by
  intro x internalId e reg hact hpend _hprobe
  have hpend2 : dictRemove reg.pending internalId = [] := by
    rw [hpend]
    simp [dictRemove]
  have hact2 : dictGet (dictInsert reg.active x e) x = some e :=
    dictGet_dictInsert_self reg.active x e
  refine ⟨{ active := dictInsert reg.active x e,
            pending := dictRemove reg.pending internalId }, ?_, hact2, hpend2,
          ?_, ?_⟩
  · unfold eagerlyRegisterFromPending
    rw [hact, hpend]
  · unfold getOrRegisterExecution
    rw [show ({ active := dictInsert reg.active x e,
                pending := dictRemove reg.pending internalId } :
          HookRegistry).active = dictInsert reg.active x e from rfl, hact2]
  · unfold eagerlyRegisterFromPending
    rw [show ({ active := dictInsert reg.active x e,
                pending := dictRemove reg.pending internalId } :
          HookRegistry).active = dictInsert reg.active x e from rfl, hact2]

/-- C5 witness: one pending entry with no captured SDK id, empty active pool,
unknown external id "X". -/
theorem C5_eager_promotion_single_pending_witness :
    ∃ reg2 : HookRegistry,
      eagerlyRegisterFromPending "X"
          ⟨[], [("A", ⟨"A", none, none, none⟩)]⟩
        = (some ⟨"A", none, none, none⟩, reg2)
      ∧ dictGet reg2.active "X" = some ⟨"A", none, none, none⟩
      ∧ reg2.pending = []
      ∧ getOrRegisterExecution "X" reg2
          = (some ⟨"A", none, none, none⟩, reg2, 0)
      ∧ eagerlyRegisterFromPending "X" reg2
          = (some ⟨"A", none, none, none⟩, reg2) :=
  C5_eager_promotion_single_pending "X" "A" ⟨"A", none, none, none⟩
    ⟨[], [("A", ⟨"A", none, none, none⟩)]⟩ rfl rfl (by decide)

/-! ### C6 — Execution._process_responses
(src/backend/app/infrastructure/claude/execution/execution.py)

The response loop routes converted worker events through the text buffer
manager; `MessageStartEvent` is skipped, deltas are buffered,
`ContentBlockStopEvent` flushes one block, and a `MessageCompleteEvent`
flushes everything and is then yielded with its `has_more_messages` flag
recomputed from `self.is_processing` and `self.queue.qsize()` read at that
moment — the loop keeps consuming afterwards until the stream ends. -/

/-- Modelled from the spec: `TextBufferManager`
(app/infrastructure/claude/streaming/text_buffer.py is not under src/).
Spec §4.2 EventBufferer: a mapping from content-block index to an
accumulating text buffer; buffering a delta appends without emitting; a flush
emits one consolidated event for an existing buffer and clears it, and emits
nothing for an absent one; flushing all flushes every remaining buffer. -/
structure TextBufferManager where
  buffers : List (Nat × String)
deriving DecidableEq

def bufferDelta (tb : TextBufferManager) (idx : Nat) (text : String) :
    TextBufferManager :=
  ⟨dictInsert tb.buffers idx (((dictGet tb.buffers idx).getD "") ++ text)⟩

/-- Worker output units after `convert_message_to_events`, as
`_process_responses` consumes them.  A turn-complete marker carries the
values of `self.is_processing` and `self.queue.qsize()` read at the moment
the marker is handled. -/
inductive WorkerEvent
  | messageStart
  | streamDelta (idx : Nat) (text : String)
  | contentBlockStop (idx : Nat)
  | toolUse (toolName : String)
  | messageComplete (isProcessing : Bool) (queueSize : Nat)
deriving DecidableEq

/-- Events `_process_responses` yields back to `_execute_session`. -/
inductive OutEvent
  | contentBlock (idx : Nat) (text : String)
  | toolUse (toolName : String)
  | messageComplete (hasMoreMessages : Bool)
deriving DecidableEq

def flushBuffer (tb : TextBufferManager) (idx : Nat) :
    Option OutEvent × TextBufferManager :=
  match dictGet tb.buffers idx with
  | some acc => (some (.contentBlock idx acc), ⟨dictRemove tb.buffers idx⟩)
  | none => (none, tb)

def flushAllBuffers (tb : TextBufferManager) :
    List OutEvent × TextBufferManager :=
  (tb.buffers.map (fun p => .contentBlock p.1 p.2), ⟨[]⟩)

/-- One iteration of the response loop of `_process_responses`. -/
def processEvent (tb : TextBufferManager) :
    WorkerEvent → TextBufferManager × List OutEvent
  | .messageStart => (tb, [])
  | .streamDelta idx text => (bufferDelta tb idx text, [])
  | .contentBlockStop idx =>
    match flushBuffer tb idx with
    | (some ev, tb2) => (tb2, [ev])
    | (none, tb2) => (tb2, [])
  | .toolUse n => (tb, [.toolUse n])
  | .messageComplete isProcessing queueSize =>
    let flushed := flushAllBuffers tb
    (flushed.2,
      flushed.1 ++ [.messageComplete (isProcessing || decide (queueSize > 0))])

def processEvents (tb : TextBufferManager) :
    List WorkerEvent → TextBufferManager × List OutEvent
  | [] => (tb, [])
  | ev :: rest =>
    let r1 := processEvent tb ev
    let r2 := processEvents r1.1 rest
    (r2.1, r1.2 ++ r2.2)

/-- Execution._process_responses over a whole worker stream: consume every
event, then the safety flush of any remaining buffers once the stream ends. -/
def processResponses (tb : TextBufferManager) (events : List WorkerEvent) :
    List OutEvent :=
  let r := processEvents tb events
  r.2 ++ (flushAllBuffers r.1).1

/-- C6: handling a turn-complete marker first emits the flush of every
remaining buffer (leaving the buffer map empty), then the final event whose
has-more-messages flag is true exactly when `is_processing` is true or the
queue is non-empty at that moment; and the loop does not return there — the
rest of the stream is still consumed, from the now-empty buffer state. -/
theorem C6_turn_complete_flush_flag_continue :
    ∀ (tb : TextBufferManager) (p : Bool) (q : Nat) (post : List WorkerEvent),
      (processEvent tb (.messageComplete p q)).2
          = (flushAllBuffers tb).1
              ++ [.messageComplete (p || decide (q > 0))]
      ∧ (processEvent tb (.messageComplete p q)).1.buffers = []
      ∧ ((p || decide (q > 0)) = true ↔ (p = true ∨ q ≠ 0))
      ∧ processEvents tb (.messageComplete p q :: post)
          = ((processEvents ⟨[]⟩ post).1,
             (flushAllBuffers tb).1
               ++ .messageComplete (p || decide (q > 0))
                 :: (processEvents ⟨[]⟩ post).2) := by
  intro tb p q post
  refine ⟨rfl, rfl, ?_, ?_⟩
  · constructor
    · intro h
      rcases Bool.or_eq_true_iff.mp h with h1 | h1
      · exact Or.inl h1
      · exact Or.inr (Nat.pos_iff_ne_zero.mp (of_decide_eq_true h1))
    · intro h
      rcases h with h1 | h1
      · simp [h1]
      · have hq : decide (q > 0) = true :=
          decide_eq_true (Nat.pos_of_ne_zero h1)
        simp [hq]
  · simp [processEvents, processEvent, flushAllBuffers]

/-- C6 witness: a single buffered block is flushed by a turn-complete marker
with nothing left buffered. -/
theorem C6_turn_complete_flush_flag_continue_witness :
    (processEvent ⟨[(0, "Hello")]⟩ (.messageComplete false 0)).2
        = (flushAllBuffers ⟨[(0, "Hello")]⟩).1
            ++ [.messageComplete (false || decide ((0 : Nat) > 0))]
    ∧ (processEvent ⟨[(0, "Hello")]⟩ (.messageComplete false 0)).1.buffers = [] :=
  ⟨(C6_turn_complete_flush_flag_continue ⟨[(0, "Hello")]⟩ false 0 []).1,
   (C6_turn_complete_flush_flag_continue ⟨[(0, "Hello")]⟩ false 0 []).2.1⟩

/-! ### C9 — SessionExecutor._broadcast_queue_status
(src/backend/app/infrastructure/claude/execution/executor.py)

`list(queue._queue)[:10]` is the first ten pending items in queue order;
each preview is `msg.message[:100]`, with `"..."` appended when the payload
is longer than 100 characters. -/

/-- app/infrastructure/claude/streaming/events.QueuedMessagePreview, with the
payload preview as a character sequence. -/
structure QueuedMessagePreview where
  senderName : Option String
  senderSessionId : Option String
  contentPreview : List Char
deriving DecidableEq

/-- The ellipsis marker appended to truncated previews. -/
def ellipsisMarker : List Char := ['.', '.', '.']

/-- The preview built per queued item inside `_broadcast_queue_status`. -/
def previewOf (m : QueuedMessage) : QueuedMessagePreview :=
  { senderName := m.senderName,
    senderSessionId := m.senderSessionId,
    contentPreview :=
      if m.message.length > 100 then m.message.take 100 ++ ellipsisMarker
      else m.message.take 100 }

/-- SessionExecutor._broadcast_queue_status, projected to the preview list it
places on the queue-status event: previews of the first 10 queued items in
queue order when the queue is non-empty, nothing otherwise. -/
def broadcastQueuePreviews (queue : List QueuedMessage) :
    List QueuedMessagePreview :=
  if queue.length > 0 then (queue.take 10).map previewOf else []

theorem contentPreview_of_length_le {m : QueuedMessage}
    (h : m.message.length ≤ 100) : (previewOf m).contentPreview = m.message := by
  unfold previewOf
  simp only [if_neg (by omega : ¬ m.message.length > 100)]
  exact List.take_of_length_le h

/-- C9: the broadcast queue preview holds at most 10 items — the first 10
pending items in queue order, each carrying the sender metadata — and a
payload's preview is its first 100 characters with the ellipsis marker
appended exactly when the payload exceeds 100 characters; payloads of at
most 100 characters appear unmodified. -/
theorem C9_queue_preview_truncation :
    ∀ (queue : List QueuedMessage) (m : QueuedMessage),
      (broadcastQueuePreviews queue).length ≤ 10
      ∧ broadcastQueuePreviews queue = (queue.take 10).map previewOf
      ∧ (m.message.length ≤ 100 →
          (previewOf m).contentPreview = m.message)
      ∧ ((previewOf m).contentPreview = m.message.take 100 ++ ellipsisMarker
          ↔ m.message.length > 100) := by
  intro queue m
  refine ⟨?_, ?_, fun h => contentPreview_of_length_le h, ?_⟩
  · unfold broadcastQueuePreviews
    split
    · rw [List.length_map, List.length_take]
      exact Nat.min_le_left _ _
    · simp
  · unfold broadcastQueuePreviews
    split
    · rfl
    · cases queue with
      | nil => rfl
      | cons a l => simp_all
  · constructor
    · intro heq
      by_cases hlen : m.message.length > 100
      · exact hlen
      · exfalso
        rw [contentPreview_of_length_le (by omega)] at heq
        have hlt : m.message.length < (m.message.take 100 ++ ellipsisMarker).length := by
          rw [List.length_append]
          have : (m.message.take 100).length = m.message.length := by
            rw [List.length_take]
            omega
          rw [this]
          simp [ellipsisMarker]
        rw [← heq] at hlt
        omega
    · intro hlen
      unfold previewOf
      simp only [if_pos hlen]

/-- C9 witness: a two-character payload passes through unmodified and gains
no ellipsis; the preview list of a singleton queue has at most 10 items. -/
theorem C9_queue_preview_truncation_witness :
    (broadcastQueuePreviews [⟨['h', 'i'], none, none, none⟩]).length ≤ 10
    ∧ (previewOf ⟨['h', 'i'], none, none, none⟩).contentPreview = ['h', 'i'] :=
  ⟨(C9_queue_preview_truncation [⟨['h', 'i'], none, none, none⟩]
      ⟨['h', 'i'], none, none, none⟩).1,
   (C9_queue_preview_truncation [⟨['h', 'i'], none, none, none⟩]
      ⟨['h', 'i'], none, none, none⟩).2.2.1 (by decide)⟩

/-! ### C10 — MCP tool context session info
(src/backend/app/infrastructure/mcp/servers/context.py)

`_session_info` is a ContextVar; `_global_session_info` is a process-wide
insertion-ordered dict keyed by source instance id, and
`next(iter(dict.values()))` returns the value of the first-inserted key. -/

/-- The dict stored by context.set_session_info. -/
structure SessionInfo where
  sourceInstanceId : String
  projectId : Option String
deriving DecidableEq

/-- context.set_session_info: set the ContextVar and store the same data in
the process-wide dict under the source instance id. -/
def set_session_info (sourceInstanceId : String) (projectId : Option String)
    (_ctx : Option SessionInfo) (glob : List (String × SessionInfo)) :
    Option SessionInfo × List (String × SessionInfo) :=
  let data : SessionInfo := ⟨sourceInstanceId, projectId⟩
  (some data, dictInsert glob sourceInstanceId data)

/-- context.get_current_session_info: the ContextVar value when set (the
stored dict is never empty, hence truthy); otherwise the first entry of the
process-wide dict; otherwise None. -/
def get_current_session_info (ctx : Option SessionInfo)
    (glob : List (String × SessionInfo)) : Option SessionInfo :=
  match ctx with
  | some info => some info
  | none =>
    match glob with
    | [] => none
    | (_, v) :: _ => some v

/-- C10: with the ContextVar unset, get_current_session_info returns None
exactly when the process-wide registry is empty; otherwise it returns the
value under the registry's first-inserted key (a position set_session_info
never changes), which is the single registered entry when exactly one exists
— and with two sessions registered it returns the first one even when the
caller is the second, as the concrete two-entry registry shows. -/
theorem C10_session_info_global_fallback :
    (∀ glob : List (String × SessionInfo),
        (get_current_session_info none glob = none ↔ glob = []))
    ∧ (∀ (k : String) (v : SessionInfo) (rest : List (String × SessionInfo)),
        get_current_session_info none ((k, v) :: rest) = some v)
    ∧ (∀ (k0 : String) (v0 : SessionInfo) (rest : List (String × SessionInfo))
          (sid : String) (pid : Option String) (ctx : Option SessionInfo),
        ((set_session_info sid pid ctx ((k0, v0) :: rest)).2).head?.map
            Prod.fst = some k0)
    ∧ (dictGet [("a", (⟨"a", none⟩ : SessionInfo)), ("b", ⟨"b", none⟩)] "b"
          = some ⟨"b", none⟩
        ∧ get_current_session_info none
            [("a", ⟨"a", none⟩), ("b", ⟨"b", none⟩)] = some ⟨"a", none⟩
        ∧ get_current_session_info none
            [("a", ⟨"a", none⟩), ("b", ⟨"b", none⟩)] ≠ some ⟨"b", none⟩) := by
  refine ⟨?_, ?_, ?_, by decide, by decide, by decide⟩
  · intro glob
    cases glob with
    | nil => simp [get_current_session_info]
    | cons p rest =>
      obtain ⟨k, v⟩ := p
      simp [get_current_session_info]
  · intro k v rest
    rfl
  · intro k0 v0 rest sid pid ctx
    unfold set_session_info
    by_cases hk : k0 = sid <;> simp [dictInsert, hk]

/-- C10 witness: with the ContextVar unset and exactly one registered entry,
the fallback returns that entry. -/
theorem C10_session_info_global_fallback_witness :
    get_current_session_info none
        [("a", (⟨"a", none⟩ : SessionInfo))] = some ⟨"a", none⟩ :=
  C10_session_info_global_fallback.2.1 "a" ⟨"a", none⟩ []

end Kumiai
